import Mathlib

/-!
Verification development for the trae-agent Rust repository.

The definitions below are shallow embeddings of the repository's Rust
functions.  Rust `String` / `&str` values are modelled by Lean `String`
(a list of unicode scalar values); where byte-level behaviour matters
(the bash tool's output truncation) strings are modelled as `List Char`
together with the UTF-8 byte size of each character.  Filesystem writes
are modelled by returning the written content; external effects (the
LLM, `serde_json` parsing, the `jsonpath_lib` crate, git subprocesses,
the tokio timer) are modelled as explicit oracle parameters so that each
embedded function is a pure function of its inputs and of the oracles'
outcomes.
-/

set_option maxRecDepth 100000

namespace TraeAgent

/-! ## Rust string primitives

Models of the `std` string methods used by the repository.  Character
classes follow the ASCII fragment of the corresponding unicode
predicates (all strings occurring in the claims are ASCII).
-/

/-- Models Rust `char::is_whitespace` on the ASCII range. -/
def isRustWs (c : Char) : Bool :=
  c = ' ' || c = '\t' || c = '\n' || c = '\r' || c = '\x0b' || c = '\x0c'

/-- Trim a character list on both ends (helper for `rustTrim`). -/
def trimList (l : List Char) : List Char :=
  ((l.dropWhile isRustWs).reverse.dropWhile isRustWs).reverse

/-- Models Rust `str::trim`. -/
def rustTrim (s : String) : String := ⟨trimList s.data⟩

/-- Models Rust `str::contains` (substring search). -/
def listContainsSub : List Char → List Char → Bool
  | [], pat => pat.isEmpty
  | _h :: t, pat => pat.isPrefixOf (_h :: t) || listContainsSub t pat

/-- Models Rust `str::contains` on `String`. -/
def strContains (hay pat : String) : Bool := listContainsSub hay.data pat.data

/-- Models Rust `str::starts_with`. -/
def strStartsWith (s p : String) : Bool := p.data.isPrefixOf s.data

/-- Models Rust `str::ends_with`. -/
def strEndsWith (s p : String) : Bool := p.data.isSuffixOf s.data

/-- Models the ASCII case mapping used by `str::to_lowercase`. -/
def asciiToLower (c : Char) : Char :=
  if 'A' ≤ c && c ≤ 'Z' then Char.ofNat (c.toNat + 32) else c

/-- Models Rust `str::to_lowercase` (ASCII fragment). -/
def lowercase (s : String) : String := ⟨s.data.map asciiToLower⟩

/-- Non-overlapping left-to-right match count, fuelled so that the
definition is structural (kernel-reducible).  The fuel is consumed one
unit per step; `countMatches` supplies `s.length`, which suffices
because every step shortens the haystack by at least one character. -/
def countMatchesF : Nat → List Char → List Char → Nat
  | _, s, [] => s.length + 1
  | 0, _, _ :: _ => 0
  | _ + 1, [], _ :: _ => 0
  | n + 1, c :: rest, p :: ps =>
    if (p :: ps).isPrefixOf (c :: rest) then
      1 + countMatchesF n (rest.drop ps.length) (p :: ps)
    else
      countMatchesF n rest (p :: ps)

/-- Models Rust `str::matches(pat).count()`: the number of disjoint
occurrences of `pat` in `s`, scanning left to right.  An empty pattern
matches at every character boundary, as in Rust. -/
def countMatches (s pat : List Char) : Nat := countMatchesF s.length s pat

/-- Replacement of all disjoint left-to-right occurrences, fuelled like
`countMatchesF`. -/
def replaceAllF : Nat → List Char → List Char → List Char → List Char
  | _, s, [], rep => rep ++ s.foldr (fun c acc => c :: (rep ++ acc)) []
  | 0, s, _ :: _, _ => s
  | _ + 1, [], _ :: _, _ => []
  | n + 1, c :: rest, p :: ps, rep =>
    if (p :: ps).isPrefixOf (c :: rest) then
      rep ++ replaceAllF n (rest.drop ps.length) (p :: ps) rep
    else
      c :: replaceAllF n rest (p :: ps) rep

/-- Models Rust `str::replace`: replace every disjoint occurrence of
`pat` by `rep`, scanning left to right. -/
def replaceAll (s pat rep : List Char) : List Char := replaceAllF s.length s pat rep

/-- Split a character list at every occurrence of `sep` (helper for
`rustLines`).  `splitOnChar sep []` is `[[]]`, matching the behaviour of
splitting an empty string. -/
def splitOnChar (sep : Char) : List Char → List (List Char)
  | [] => [[]]
  | c :: rest =>
    let r := splitOnChar sep rest
    if c = sep then [] :: r
    else
      match r with
      | h :: t => (c :: h) :: t
      | [] => [[c]]

/-- Drop a single trailing carriage return (Rust `str::lines` strips
`\r\n` endings). -/
def dropTrailingCR (l : List Char) : List Char :=
  match l.reverse with
  | '\r' :: t => t.reverse
  | _ => l

/-- Models Rust `str::lines`: split on `\n`, drop a final empty segment
(so a trailing newline does not yield an empty last line and the empty
string has no lines), and strip one trailing `\r` from each line. -/
def rustLines (s : String) : List String :=
  let parts := splitOnChar '\n' s.data
  let parts := if parts.getLast? = some [] then parts.dropLast else parts
  parts.map (fun l => ⟨dropTrailingCR l⟩)

/-- Split at every character satisfying `p`, keeping empty segments
(helper for `splitWhitespace`). -/
def splitOnPred (p : Char → Bool) : List Char → List (List Char)
  | [] => [[]]
  | c :: rest =>
    let r := splitOnPred p rest
    if p c then [] :: r
    else
      match r with
      | h :: t => (c :: h) :: t
      | [] => [[c]]

/-- Models Rust `str::split_whitespace`: maximal runs of
non-whitespace characters. -/
def splitWhitespace (s : String) : List String :=
  ((splitOnPred isRustWs s.data).filter (fun l => !l.isEmpty)).map (fun l => ⟨l⟩)

/-- Join string pieces with a separator; models `Vec::join`. -/
def joinWith (sep : List Char) : List (List Char) → List Char
  | [] => []
  | [x] => x
  | x :: y :: xs => x ++ sep ++ joinWith sep (y :: xs)

/-- Models `Vec<String>::join("\n")` on Lean strings. -/
def joinLines (ls : List String) : String := ⟨joinWith ['\n'] (ls.map String.data)⟩

/-! ## JSON values

Model of `serde_json::Value`.  Numbers are modelled as integers; no
claim depends on the finer structure of JSON numbers.  Objects preserve
insertion order as a list of key/value pairs. -/

inductive JsonV : Type
  | null : JsonV
  | bool (b : Bool) : JsonV
  | num (n : Int) : JsonV
  | str (s : String) : JsonV
  | arr (xs : List JsonV) : JsonV
  | obj (kvs : List (String × JsonV)) : JsonV

/-- Models `serde_json::Value::is_object`. -/
def JsonV.isObj : JsonV → Bool
  | .obj _ => true
  | _ => false

/-- Models `serde_json::Value::is_null`. -/
def JsonV.isNull : JsonV → Bool
  | .null => true
  | _ => false

/-- Escape a string for inclusion in a JSON document (the fragment of
`serde_json`'s escaping needed here: quote, backslash, and the control
characters appearing in this development). -/
def escJsonChar (c : Char) : List Char :=
  if c = '"' then ['\\', '"']
  else if c = '\\' then ['\\', '\\']
  else if c = '\n' then ['\\', 'n']
  else if c = '\t' then ['\\', 't']
  else if c = '\r' then ['\\', 'r']
  else [c]

/-- JSON string literal rendering. -/
def renderJsonString (s : String) : String :=
  ⟨'"' :: s.data.foldr (fun c acc => escJsonChar c ++ acc) ['"']⟩

/-- Models `serde_json::to_string` (compact serialization, also the
`Display` implementation of `Value`). -/
def renderJson (v : JsonV) : String :=
  match v with
  | .null => "null"
  | .bool true => "true"
  | .bool false => "false"
  | .num n => toString n
  | .str s => renderJsonString s
  | .arr xs =>
    "[" ++ String.intercalate "," (xs.attach.map (fun x => renderJson x.1)) ++ "]"
  | .obj kvs =>
    "\x7b" ++
      String.intercalate ","
        (kvs.attach.map (fun kv => renderJsonString kv.1.1 ++ ":" ++ renderJson kv.1.2)) ++
      "\x7d"
  termination_by sizeOf v
  decreasing_by
  · have h := List.sizeOf_lt_of_mem x.2
    simp only [JsonV.arr.sizeOf_spec]
    omega
  · rcases kv with ⟨⟨k, w⟩, hm⟩
    have h := List.sizeOf_lt_of_mem hm
    simp only [Prod.mk.sizeOf_spec] at h
    simp only [JsonV.obj.sizeOf_spec]
    omega

/-- Models `serde_json::to_string_pretty` (2-space indentation). -/
def renderJsonPretty (indent : Nat) (v : JsonV) : String :=
  match v with
  | .arr [] => "[]"
  | .arr xs =>
    let pad := String.mk (List.replicate (2 * (indent + 1)) ' ')
    "[\n" ++
      String.intercalate ",\n"
        (xs.attach.map (fun x => pad ++ renderJsonPretty (indent + 1) x.1)) ++
      "\n" ++ String.mk (List.replicate (2 * indent) ' ') ++ "]"
  | .obj [] => "\x7b\x7d"
  | .obj kvs =>
    let pad := String.mk (List.replicate (2 * (indent + 1)) ' ')
    "\x7b\n" ++
      String.intercalate ",\n"
        (kvs.attach.map (fun kv =>
          pad ++ renderJsonString kv.1.1 ++ ": " ++ renderJsonPretty (indent + 1) kv.1.2)) ++
      "\n" ++ String.mk (List.replicate (2 * indent) ' ') ++ "\x7d"
  | w => renderJson w
  termination_by sizeOf v
  decreasing_by
  · have h := List.sizeOf_lt_of_mem x.2
    simp only [JsonV.arr.sizeOf_spec]
    omega
  · rcases kv with ⟨⟨k, w⟩, hm⟩
    have h := List.sizeOf_lt_of_mem hm
    simp only [Prod.mk.sizeOf_spec] at h
    simp only [JsonV.obj.sizeOf_spec]
    omega

/-- Serialize a document according to the tool's `pretty_print` flag;
models the `to_string_pretty` / `to_string` choice in
`JsonEditTool::save_json_file`. -/
def serializeDoc (pretty : Bool) (v : JsonV) : String :=
  if pretty then renderJsonPretty 0 v else renderJson v

/-! ## Tool plumbing types

From `trae-agent-rust/src/tools/base.rs`.  The `ToolError` enum there
has variants `ExecutionFailed`, `InvalidArguments`, `NotFound` and
`Other`; the sibling `trae_agent_rs` crate's `tools/base.rs` is not in
the source snapshot, but its tools (`json_edit_tool.rs`,
`task_done_tool.rs`) construct the additional variants `FileNotFound`,
`FileReadError`, `InvalidJson`, `InternalError` and `FileWriteError`,
which are included here as used by that code. -/

inductive ToolError : Type
  | ExecutionFailed (msg : String)
  | InvalidArguments (tool_name message : String)
  | NotFound (what : String)
  | Other (msg : String)
  | FileNotFound (path : String)
  | FileReadError (msg : String)
  | InvalidJson (msg : String)
  | InternalError (msg : String)
  | FileWriteError (msg : String)
  deriving DecidableEq, Repr

/-- Models the `thiserror`-derived `Display` of `ToolError` (the
formats of the variants present in `trae-agent-rust/src/tools/base.rs`;
plausible formats for the variants of the absent sibling file). -/
def ToolError.toDisplay : ToolError → String
  | .ExecutionFailed m => "Tool execution failed: " ++ m
  | .InvalidArguments t m => "Invalid arguments for tool \x27" ++ t ++ "\x27: " ++ m
  | .NotFound w => "Tool \x27" ++ w ++ "\x27 not found"
  | .Other m => "Other tool error: " ++ m
  | .FileNotFound p => "File not found: " ++ p
  | .FileReadError m => "File read error: " ++ m
  | .InvalidJson m => "Invalid JSON: " ++ m
  | .InternalError m => "Internal error: " ++ m
  | .FileWriteError m => "File write error: " ++ m

/-- `ToolExecResult` from `tools/base.rs`: the direct result of a
tool's internal execution logic. -/
structure ToolExecResult : Type where
  output : Option String
  error : Option String
  error_code : Int
  deriving DecidableEq, Repr

/-- `ToolResult` from `tools/base.rs`: the final result of a tool
execution, echoing the tool-call id. -/
structure ToolResult : Type where
  tool_call_id : String
  success : Bool
  result : Option String
  error : Option String
  deriving DecidableEq, Repr

/-- An LLM tool-call request (`llm_types::ToolCall`); the nested
`function` struct (`name`, `arguments`) is flattened into the fields
`name` and `arguments`. -/
structure ToolCall : Type where
  id : String
  name : String
  arguments : String
  deriving DecidableEq, Repr

/-- The mapping from a tool's `Ok(exec_result)` to a `ToolResult`,
inlined twice in `ToolExecutor::execute_tool_call`:
success iff `error_code == 0`. -/
def execResultToToolResult (id : String) (r : ToolExecResult) : ToolResult :=
  { tool_call_id := id
    success := r.error_code == 0
    result := r.output
    error := r.error }

/-- The mapping an invoked tool's outcome receives in
`ToolExecutor::execute_tool_call` (both the `Ok` and `Err` arms). -/
def execOutcomeToToolResult (id : String) (r : Except ToolError ToolExecResult) : ToolResult :=
  match r with
  | .ok exec_result => execResultToToolResult id exec_result
  | .error e =>
    { tool_call_id := id, success := false, result := none, error := some e.toDisplay }

/-- Shallow embedding of `ToolExecutor::execute_tool_call`
(`trae-agent-rust/src/tools/base.rs`).  The executor's `HashMap` of
tools is modelled as an association list from tool name to the tool's
`execute` function; `serde_json::from_str` is modelled by the oracle
`parse_json` (returning the parse-error display text on failure). -/
def execute_tool_call
    (tools : List (String × (JsonV → Except ToolError ToolExecResult)))
    (parse_json : String → Except String JsonV)
    (req : ToolCall) : ToolResult :=
  match tools.lookup req.name with
  | some tool =>
    match parse_json req.arguments with
    | .ok args_value =>
      if !args_value.isObj && !args_value.isNull then
        { tool_call_id := req.id
          success := false
          result := none
          error := some ("Tool arguments must parse to a JSON object or null. Parsed as: "
            ++ renderJson args_value) }
      else
        execOutcomeToToolResult req.id (tool args_value)
    | .error e =>
      if rustTrim req.arguments = "" then
        execOutcomeToToolResult req.id (tool JsonV.null)
      else
        { tool_call_id := req.id
          success := false
          result := none
          error := some ("Invalid JSON arguments for tool " ++ req.name ++ ": " ++ e
            ++ ". Arguments: " ++ req.arguments) }
  | none =>
    { tool_call_id := req.id
      success := false
      result := none
      error := some ("Tool \x27" ++ req.name ++ "\x27 not found. Available tools: ["
        ++ String.intercalate ", " (tools.map (fun t => "\x22" ++ t.1 ++ "\x22")) ++ "]") }

/-! ## Claim C2 -/

/-- C2: for every tool-call request whose named tool is registered: a
whitespace-only argument string (on which JSON parsing fails, as it
does for `serde_json`) makes the tool's `execute` receive JSON null; an
argument string parsing to a value that is neither an object nor null
yields a failure `ToolResult` whose content does not depend on the tool
(the tool is not invoked); an argument string parsing to an object or
null makes `execute` receive exactly the parsed value; and in every
case (tool-not-found included) the returned `ToolResult` echoes the
request's id unchanged. -/
theorem execute_tool_call_spec
    (tools : List (String × (JsonV → Except ToolError ToolExecResult)))
    (parse_json : String → Except String JsonV) (req : ToolCall) :
    (∀ f, tools.lookup req.name = some f →
      (∀ e, parse_json req.arguments = .error e → rustTrim req.arguments = "" →
        execute_tool_call tools parse_json req = execOutcomeToToolResult req.id (f JsonV.null))
      ∧ (∀ v, parse_json req.arguments = .ok v → v.isObj = false → v.isNull = false →
        execute_tool_call tools parse_json req =
          { tool_call_id := req.id
            success := false
            result := none
            error := some ("Tool arguments must parse to a JSON object or null. Parsed as: "
              ++ renderJson v) })
      ∧ (∀ v, parse_json req.arguments = .ok v → (v.isObj = true ∨ v.isNull = true) →
        execute_tool_call tools parse_json req = execOutcomeToToolResult req.id (f v)))
    ∧ (execute_tool_call tools parse_json req).tool_call_id = req.id := by
  have hout : ∀ (i : String) (r : Except ToolError ToolExecResult),
      (execOutcomeToToolResult i r).tool_call_id = i := by
    intro i r
    cases r <;> rfl
  constructor
  · intro f hf
    refine ⟨?_, ?_, ?_⟩
    · intro e he hw
      simp [execute_tool_call, hf, he, hw]
    · intro v hv h1 h2
      simp [execute_tool_call, hf, hv, h1, h2]
    · intro v hv h12
      rcases h12 with h | h <;>
        simp [execute_tool_call, hf, hv, h]
  · unfold execute_tool_call
    cases tools.lookup req.name with
    | none => rfl
    | some f =>
      cases parse_json req.arguments with
      | ok v =>
        dsimp only
        split
        · rfl
        · exact hout _ _
      | error e =>
        dsimp only
        split
        · exact hout _ _
        · rfl

/-- C2 witness: a concrete registered tool, a whitespace-only argument
string, and a parse oracle that rejects it; the tool receives JSON
null and the tool-call id is echoed. -/
theorem execute_tool_call_spec_witness :
    execute_tool_call [("t", fun v => .ok ⟨some (renderJson v), none, 0⟩)]
        (fun _ => .error "EOF while parsing a value") ⟨"id1", "t", "  "⟩ =
      execOutcomeToToolResult "id1"
        ((fun v => .ok (⟨some (renderJson v), none, 0⟩ : ToolExecResult)) JsonV.null)
    ∧ (execute_tool_call [("t", fun v => .ok ⟨some (renderJson v), none, 0⟩)]
        (fun _ => .error "EOF while parsing a value") ⟨"id1", "t", "  "⟩).tool_call_id = "id1" := by
  have h := execute_tool_call_spec
      [("t", fun v => .ok (⟨some (renderJson v), none, 0⟩ : ToolExecResult))]
      (fun _ => .error "EOF while parsing a value") ⟨"id1", "t", "  "⟩
  exact ⟨(h.1 _ rfl).1 "EOF while parsing a value" rfl (by decide), h.2⟩

/-! ## Claim C8: the task_done tool -/

/-- Models Rust `format!("{:?}", s)` for a string: quoted, with quote,
backslash and the common control characters escaped (the fragment of
Rust's `Debug` escaping needed here, which coincides with the JSON one
on these characters). -/
def rustDebugString (s : String) : String :=
  ⟨'"' :: s.data.foldr (fun c acc => escJsonChar c ++ acc) ['"']⟩

/-- Models `format!("{:?}", value)` for `serde_json::Value` (its custom
`Debug` implementation): `Null`, `Bool(b)`, `Number(n)`,
`String("…")`, `Array [...]` and `Object` followed by the map's debug
rendering. -/
def rustDebugJson (v : JsonV) : String :=
  match v with
  | .null => "Null"
  | .bool b => "Bool(" ++ toString b ++ ")"
  | .num n => "Number(" ++ toString n ++ ")"
  | .str s => "String(" ++ rustDebugString s ++ ")"
  | .arr xs =>
    "Array [" ++ String.intercalate ", " (xs.attach.map (fun x => rustDebugJson x.1)) ++ "]"
  | .obj kvs =>
    "Object \x7b" ++
      String.intercalate ", "
        (kvs.attach.map (fun kv => rustDebugString kv.1.1 ++ ": " ++ rustDebugJson kv.1.2)) ++
      "\x7d"
  termination_by sizeOf v
  decreasing_by
  · have h := List.sizeOf_lt_of_mem x.2
    simp only [JsonV.arr.sizeOf_spec]
    omega
  · rcases kv with ⟨⟨k, w⟩, hm⟩
    have h := List.sizeOf_lt_of_mem hm
    simp only [Prod.mk.sizeOf_spec] at h
    simp only [JsonV.obj.sizeOf_spec]
    omega

/-- Models serde_json's rendering of an unexpected value in its
`invalid type:` error messages (`JsonUnexpected`, which prints `null`
for `Unexpected::Unit` and otherwise serde's `Unexpected` display). -/
def jsonUnexpected : JsonV → String
  | .null => "null"
  | .bool b => "boolean \x60" ++ toString b ++ "\x60"
  | .num n => "integer \x60" ++ toString n ++ "\x60"
  | .str s => "string " ++ rustDebugString s
  | .arr _ => "sequence"
  | .obj _ => "map"

/-- Models `serde_json::from_value::<TaskDoneArgs>` for
`TaskDoneArgs { summary: Option<String> }`
(`trae_agent_rs/src/tools/task_done_tool.rs`).  The derived struct
deserializer accepts the map form — a JSON object whose optional
`summary` field is absent or null (`None`) or a string (`Some`), with
unknown fields ignored — and, through `visit_seq`, serde's sequence
form — a JSON array with exactly one element, itself null or a string
(an empty or longer array is a length error).  Every other value, JSON
null included, is an invalid-type error.  The error strings model
serde_json's messages. -/
def taskDoneArgsFromValue : JsonV → Except String (Option String)
  | .obj kvs =>
    match kvs.lookup "summary" with
    | none => .ok none
    | some .null => .ok none
    | some (.str s) => .ok (some s)
    | some v => .error ("invalid type: " ++ jsonUnexpected v ++ ", expected a string")
  | .arr [] => .error "invalid length 0, expected struct TaskDoneArgs with 1 element"
  | .arr [.null] => .ok none
  | .arr [.str s] => .ok (some s)
  | .arr [v] => .error ("invalid type: " ++ jsonUnexpected v ++ ", expected a string")
  | .arr xs =>
    .error ("invalid length " ++ toString xs.length ++ ", expected fewer elements in array")
  | v => .error ("invalid type: " ++ jsonUnexpected v ++ ", expected struct TaskDoneArgs")

/-- Shallow embedding of `TaskDoneTool::execute`
(`trae_agent_rs/src/tools/task_done_tool.rs`); the failed-parse message
renders the arguments with `{:?}` debug formatting, as the source
does. -/
def task_done_execute (arguments : JsonV) : Except ToolError ToolExecResult :=
  match taskDoneArgsFromValue arguments with
  | .error e =>
    .error (.InvalidArguments "task_done"
      ("Failed to parse arguments: " ++ e ++ ". Args: " ++ rustDebugJson arguments))
  | .ok summary =>
    let summary_message := summary.getD "No summary provided."
    .ok ⟨some ("Task completion signaled. Summary: " ++ summary_message), none, 0⟩

/-- C8 counterexample: at the explicit concrete input JSON null (which
the executor passes for whitespace-only argument strings), the
task_done tool does not succeed: `serde_json::from_value` rejects null
for the argument struct and `execute` returns an `InvalidArguments`
`ToolError`, contradicting the claim that it always returns Ok. -/
theorem task_done_null_counterexample :
    task_done_execute JsonV.null =
      .error (ToolError.InvalidArguments "task_done"
        ("Failed to parse arguments: invalid type: null, expected struct TaskDoneArgs."
          ++ " Args: Null")) := by
  simp only [task_done_execute, taskDoneArgsFromValue, rustDebugJson, jsonUnexpected]
  rfl

/-- C8 (amended): `execute` returns Ok with `error_code` 0 and a
confirmation string exactly for the argument values that deserialize
into the tool's argument struct — a JSON object whose optional
`summary` field is absent, null or a string (unknown fields ignored),
or serde's sequence form, a one-element JSON array whose element is
null or a string; every argument serde rejects, JSON null included,
yields an `InvalidArguments` `ToolError`. -/
theorem task_done_execute_spec (args : JsonV) :
    (∀ s, taskDoneArgsFromValue args = .ok s →
      task_done_execute args =
        .ok ⟨some ("Task completion signaled. Summary: " ++ s.getD "No summary provided."),
          none, 0⟩)
    ∧ (∀ e, taskDoneArgsFromValue args = .error e →
      task_done_execute args =
        .error (.InvalidArguments "task_done"
          ("Failed to parse arguments: " ++ e ++ ". Args: " ++ rustDebugJson args))) := by
  constructor <;> intro x hx <;> simp [task_done_execute, hx]

/-- C8 witness: the empty JSON object deserializes (summary absent) and
the tool succeeds with error code 0 and the confirmation string. -/
theorem task_done_execute_spec_witness :
    task_done_execute (JsonV.obj []) =
      .ok ⟨some "Task completion signaled. Summary: No summary provided.", none, 0⟩ := by
  have h := (task_done_execute_spec (JsonV.obj [])).1 none rfl
  simpa using h

/-! ## Claim C3: the file-edit tool's str_replace command -/

/-- `TAB_WIDTH` from `trae-agent-rust/src/tools/edit_tool.rs`. -/
def TAB_WIDTH : Nat := 8

/-- Models `EditTool::expand_tabs`: replace every tab by `TAB_WIDTH`
spaces. -/
def expand_tabs (s : String) : String :=
  ⟨replaceAll s.data ['\t'] (List.replicate TAB_WIDTH ' ')⟩

/-- Shallow embedding of the `str_replace` arm of `EditTool::execute`
(`trae-agent-rust/src/tools/edit_tool.rs`), after path validation and
file read; the filesystem write is modelled by returning the written
content, and the success snippet message (not consulted by any claim)
is omitted. -/
def str_replace (path file_content old_str new_str : String) : Except ToolError String :=
  let old_s_expanded := expand_tabs old_str
  let new_s_expanded := expand_tabs new_str
  let content_expanded := expand_tabs file_content
  let occurrences := countMatches content_expanded.data old_s_expanded.data
  if occurrences = 0 then
    .error (.ExecutionFailed ("Pattern \x27" ++ old_str
      ++ "\x27 (with tabs expanded to 8 spaces) not found in file " ++ path ++ "."))
  else if occurrences > 1 then
    .error (.ExecutionFailed ("Pattern \x27" ++ old_str
      ++ "\x27 (with tabs expanded to 8 spaces) found " ++ toString occurrences
      ++ " times in file " ++ path ++ ". Replacement must be unique."))
  else
    .ok ⟨replaceAll content_expanded.data old_s_expanded.data new_s_expanded.data⟩

/-- The file content after a `str_replace` call: on success the write
happens, on failure the file keeps its previous content. -/
def str_replace_resulting_file (file_content : String) (r : Except ToolError String) : String :=
  match r with
  | .ok written => written
  | .error _ => file_content

/-- C3 counterexample: at file content `"abb"`, `old_str = "ab"`,
`new_str = "a"` the occurrence count is exactly 1, `str_replace`
succeeds and writes `"ab"`, yet the written file still contains 1
occurrence of the expanded `old_str` — not `original count − 1 = 0` as
the claim asserts. -/
theorem str_replace_count_counterexample :
    countMatches (expand_tabs "abb").data (expand_tabs "ab").data = 1
    ∧ str_replace "/f" "abb" "ab" "a" = .ok "ab"
    ∧ countMatches (expand_tabs "ab").data (expand_tabs "ab").data = 1
    ∧ ¬ countMatches (expand_tabs "ab").data (expand_tabs "ab").data = 1 - 1 := by
  exact ⟨by decide, by rfl, by decide, by decide⟩

/-- C3 (amended): after 8-space tab expansion of file, `old_str` and
`new_str`, `str_replace` succeeds iff the expanded file contains exactly
one occurrence of the expanded `old_str`, writing the expanded content
with its disjoint occurrences replaced; zero occurrences yield a
not-found `ExecutionFailed` error and more than one a non-unique
`ExecutionFailed` error reporting the count, in both cases leaving the
file unmodified.  The occurrence count of the expanded `old_str` in the
written file is not in general the original count minus 1, since
`new_str` or its junction with the surrounding text can reintroduce the
pattern. -/
theorem str_replace_spec (path file_content old_str new_str : String) :
    (countMatches (expand_tabs file_content).data (expand_tabs old_str).data = 1 →
      str_replace path file_content old_str new_str =
        .ok ⟨replaceAll (expand_tabs file_content).data (expand_tabs old_str).data
          (expand_tabs new_str).data⟩)
    ∧ (countMatches (expand_tabs file_content).data (expand_tabs old_str).data = 0 →
      str_replace path file_content old_str new_str =
        .error (.ExecutionFailed ("Pattern \x27" ++ old_str
          ++ "\x27 (with tabs expanded to 8 spaces) not found in file " ++ path ++ "."))
      ∧ str_replace_resulting_file file_content (str_replace path file_content old_str new_str)
          = file_content)
    ∧ (∀ n, countMatches (expand_tabs file_content).data (expand_tabs old_str).data = n →
      1 < n →
      str_replace path file_content old_str new_str =
        .error (.ExecutionFailed ("Pattern \x27" ++ old_str
          ++ "\x27 (with tabs expanded to 8 spaces) found " ++ toString n
          ++ " times in file " ++ path ++ ". Replacement must be unique."))
      ∧ str_replace_resulting_file file_content (str_replace path file_content old_str new_str)
          = file_content) := by
  refine ⟨?_, ?_, ?_⟩
  · intro h
    simp [str_replace, h]
  · intro h
    have he : str_replace path file_content old_str new_str =
        .error (.ExecutionFailed ("Pattern \x27" ++ old_str
          ++ "\x27 (with tabs expanded to 8 spaces) not found in file " ++ path ++ ".")) := by
      simp [str_replace, h]
    exact ⟨he, by simp [str_replace_resulting_file, he]⟩
  · intro n h hn
    have hn0 : ¬ n = 0 := by omega
    have he : str_replace path file_content old_str new_str =
        .error (.ExecutionFailed ("Pattern \x27" ++ old_str
          ++ "\x27 (with tabs expanded to 8 spaces) found " ++ toString n
          ++ " times in file " ++ path ++ ". Replacement must be unique.")) := by
      simp [str_replace, h, hn0, hn]
    exact ⟨he, by simp [str_replace_resulting_file, he]⟩

/-- C3 witness: the repository's own ambiguity scenario — file content
`"world world world"` with `old_str = "world"` has 3 occurrences, so
the tool fails with an error reporting "found 3 times" and the file is
untouched. -/
theorem str_replace_spec_witness :
    str_replace "/tmp/f.txt" "world world world" "world" "Rust" =
      .error (.ExecutionFailed ("Pattern \x27" ++ "world"
        ++ "\x27 (with tabs expanded to 8 spaces) found " ++ toString 3
        ++ " times in file " ++ "/tmp/f.txt" ++ ". Replacement must be unique."))
    ∧ str_replace_resulting_file "world world world"
        (str_replace "/tmp/f.txt" "world world world" "world" "Rust") = "world world world" := by
  exact (str_replace_spec "/tmp/f.txt" "world world world" "world" "Rust").2.2 3
    (by decide) (by decide)

/-! ## Claim C4: the bash tool's timeout branch -/

/-- The captured output of a finished subprocess
(`std::process::Output` as consumed by `BashTool::execute`): lossy-UTF-8
stdout and stderr, and the exit code (`None` when killed by a
signal). -/
structure ProcOutput : Type where
  stdout : String
  stderr : String
  code : Option Int
  deriving DecidableEq, Repr

/-- Models `ExitStatus::success`: exit code zero. -/
def status_success (code : Option Int) : Bool := code == some 0

/-- Models Rust `format!("{:?}", status.code())`. -/
def rustDebugOptInt : Option Int → String
  | some n => "Some(" ++ toString n ++ ")"
  | none => "None"

/-- The `match output_result` tail of `BashTool::execute`
(`trae-agent-rust/src/tools/bash_tool.rs`): assemble the combined
output, derive the error message from the exit status, and default the
error code to 1 when the process was signalled. -/
def bash_handle_output (command : String) (wait_result : Except String ProcOutput) :
    Except ToolError ToolExecResult :=
  match wait_result with
  | .ok output =>
    .ok { output := some ("STDOUT:\n" ++ output.stdout ++ "\nSTDERR:\n" ++ output.stderr)
          error :=
            if status_success output.code then none
            else some ("Command exited with status: " ++ rustDebugOptInt output.code)
          error_code := output.code.getD 1 }
  | .error e =>
    .error (.ExecutionFailed ("Command \x27" ++ command ++ "\x27 execution failed: " ++ e))

/-- Shallow embedding of `BashTool::execute`
(`trae-agent-rust/src/tools/bash_tool.rs`) after argument parsing, with
the subprocess modelled by oracles: `elapsed` is whether
`tokio::time::timeout` elapsed before the child finished (only
consulted when a timeout was supplied), and `wait_result` is the
outcome of `child.wait_with_output()`.  Spawn failure is a separate
early return not modelled here. -/
def bash_execute (command : String) (timeout : Option Nat) (elapsed : Bool)
    (wait_result : Except String ProcOutput) : Except ToolError ToolExecResult :=
  if rustTrim command = "" then
    .error (.InvalidArguments "bash" "Command cannot be empty.")
  else
    match timeout with
    | some n =>
      if elapsed then
        .ok { output := none
              error := some ("Command \x27" ++ command ++ "\x27 timed out after "
                ++ toString n ++ " seconds.")
              error_code := 124 }
      else bash_handle_output command wait_result
    | none => bash_handle_output command wait_result

/-- C4: for every non-empty command run with a timeout of `n` seconds
whose subprocess does not finish in time (the timer elapses), the tool
returns Ok with no output, an error message containing (ending the
fixed prefix with) "timed out after n seconds.", and error code 124;
the executor's result mapping turns this into `success = false`. -/
theorem bash_timeout_spec (command : String) (n : Nat)
    (wait_result : Except String ProcOutput) (h : ¬ rustTrim command = "") :
    bash_execute command (some n) true wait_result =
      .ok { output := none
            error := some ("Command \x27" ++ command ++ "\x27 timed out after "
              ++ toString n ++ " seconds.")
            error_code := 124 }
    ∧ ∀ id, (execResultToToolResult id
        { output := none
          error := some ("Command \x27" ++ command ++ "\x27 timed out after "
            ++ toString n ++ " seconds.")
          error_code := 124 }).success = false := by
  refine ⟨by simp [bash_execute, h], ?_⟩
  intro id
  rfl

/-- C4 witness: the repository test's scenario, `sleep 5` with a
1-second timeout. -/
theorem bash_timeout_spec_witness :
    bash_execute "sleep 5" (some 1) true (.error "unused") =
      .ok { output := none
            error := some ("Command \x27" ++ "sleep 5" ++ "\x27 timed out after "
              ++ toString 1 ++ " seconds.")
            error_code := 124 }
    ∧ (execResultToToolResult "call_1"
        { output := none
          error := some ("Command \x27" ++ "sleep 5" ++ "\x27 timed out after "
            ++ toString 1 ++ " seconds.")
          error_code := 124 }).success = false := by
  have h := bash_timeout_spec "sleep 5" 1 (.error "unused") (by decide)
  exact ⟨h.1, h.2 "call_1"⟩

/-! ## Claims C6 and C9: bash output truncation

`BashTool::maybe_truncate` (`trae_agent_rs/src/tools/bash_tool.rs`)
works on byte lengths of UTF-8 strings, so strings are modelled here as
`List Char` with each character contributing `Char.utf8Size` bytes. -/

/-- The UTF-8 byte length of a string, modelling Rust `str::len`. -/
def utf8Len : List Char → Nat
  | [] => 0
  | c :: rest => c.utf8Size + utf8Len rest

/-- Models Rust `String::truncate(new_len)`: no-op when `new_len` is at
least the byte length, cut to exactly `new_len` bytes when that offset
is a character boundary, and panic (`none`) otherwise. -/
def truncateBytes : List Char → Nat → Option (List Char)
  | _, 0 => some []
  | [], _ + 1 => some []
  | c :: rest, n + 1 =>
    if c.utf8Size ≤ n + 1 then (truncateBytes rest (n + 1 - c.utf8Size)).map (c :: ·)
    else none

/-- `MAX_BASH_OUTPUT_LEN` from `trae_agent_rs/src/tools/bash_tool.rs`. -/
def MAX_BASH_OUTPUT_LEN : Nat := 16000

/-- `TRUNCATED_BASH_MESSAGE` from `trae_agent_rs/src/tools/bash_tool.rs`. -/
def TRUNCATED_BASH_MESSAGE : String :=
  "<response clipped><NOTE>To save on context only part of this output has been shown. You might want to use file redirection or more specific commands to manage large outputs.</NOTE>"

/-- Shallow embedding of `BashTool::maybe_truncate`
(`trae_agent_rs/src/tools/bash_tool.rs`); `none` models a panic of
`String::truncate` at a byte offset that is not a character
boundary. -/
def maybe_truncate (content : List Char) : Option (List Char) :=
  if utf8Len content > MAX_BASH_OUTPUT_LEN then
    if utf8Len TRUNCATED_BASH_MESSAGE.data ≥ MAX_BASH_OUTPUT_LEN then
      truncateBytes content MAX_BASH_OUTPUT_LEN
    else
      (truncateBytes content
        (MAX_BASH_OUTPUT_LEN - utf8Len TRUNCATED_BASH_MESSAGE.data)).map
        (· ++ TRUNCATED_BASH_MESSAGE.data)
  else some content

/-- The assembly of the combined output in the success branch of
`BashTool::execute` (`trae_agent_rs/src/tools/bash_tool.rs`): both
streams are independently truncated and then formatted as
`STDOUT:\n…\nSTDERR:\n…`. -/
def bash_combined_output (stdout stderr : List Char) : Option (List Char) :=
  match maybe_truncate stdout, maybe_truncate stderr with
  | some s, some e => some ("STDOUT:\n".data ++ s ++ "\nSTDERR:\n".data ++ e)
  | _, _ => none

theorem utf8Len_append (a b : List Char) : utf8Len (a ++ b) = utf8Len a + utf8Len b := by
  induction a with
  | nil => simp [utf8Len]
  | cons c rest ih => simp [utf8Len, ih]; omega

theorem utf8Len_truncateBytes (l : List Char) :
    ∀ n t, truncateBytes l n = some t → utf8Len t ≤ n := by
  induction l with
  | nil =>
    intro n t h
    cases n <;> simp [truncateBytes] at h <;> subst h <;> simp [utf8Len]
  | cons c rest ih =>
    intro n t h
    cases n with
    | zero => simp [truncateBytes] at h; subst h; simp [utf8Len]
    | succ m =>
      simp only [truncateBytes] at h
      by_cases hc : c.utf8Size ≤ m + 1
      · simp only [if_pos hc, Option.map_eq_some'] at h
        obtain ⟨t', ht', rfl⟩ := h
        have := ih _ _ ht'
        simp only [utf8Len]
        omega
      · simp [if_neg hc] at h

theorem maybe_truncate_some (c r : List Char) (h : maybe_truncate c = some r) :
    utf8Len r ≤ MAX_BASH_OUTPUT_LEN
    ∧ (MAX_BASH_OUTPUT_LEN < utf8Len c → ∃ pre, r = pre ++ TRUNCATED_BASH_MESSAGE.data) := by
  by_cases hgt : utf8Len c > MAX_BASH_OUTPUT_LEN
  · have hmsg : ¬ utf8Len TRUNCATED_BASH_MESSAGE.data ≥ MAX_BASH_OUTPUT_LEN := by decide
    simp only [maybe_truncate, if_pos hgt, if_neg hmsg, Option.map_eq_some'] at h
    obtain ⟨t, ht, rfl⟩ := h
    have hle := utf8Len_truncateBytes _ _ _ ht
    have hmle : utf8Len TRUNCATED_BASH_MESSAGE.data ≤ MAX_BASH_OUTPUT_LEN := by decide
    constructor
    · rw [utf8Len_append]
      omega
    · intro _
      exact ⟨t, rfl⟩
  · simp only [maybe_truncate, if_neg hgt, Option.some_inj] at h
    subst h
    exact ⟨by omega, fun hlt => absurd hlt (by omega)⟩

/-- C6: whenever the bash tool's combined output is assembled (both
truncations complete), the stdout and stderr parts placed into it are
each at most 16,000 bytes long, and whichever stream exceeded 16,000
bytes was truncated with the clipped-marker string as a suffix. -/
theorem bash_output_truncation_spec (stdout stderr out : List Char)
    (h : bash_combined_output stdout stderr = some out) :
    ∃ s e, maybe_truncate stdout = some s ∧ maybe_truncate stderr = some e
      ∧ out = "STDOUT:\n".data ++ s ++ "\nSTDERR:\n".data ++ e
      ∧ utf8Len s ≤ MAX_BASH_OUTPUT_LEN ∧ utf8Len e ≤ MAX_BASH_OUTPUT_LEN
      ∧ (MAX_BASH_OUTPUT_LEN < utf8Len stdout → ∃ pre, s = pre ++ TRUNCATED_BASH_MESSAGE.data)
      ∧ (MAX_BASH_OUTPUT_LEN < utf8Len stderr →
          ∃ pre, e = pre ++ TRUNCATED_BASH_MESSAGE.data) := by
  unfold bash_combined_output at h
  cases hs : maybe_truncate stdout with
  | none => rw [hs] at h; cases hse : maybe_truncate stderr <;> rw [hse] at h <;> simp at h
  | some s =>
    cases hse : maybe_truncate stderr with
    | none => rw [hs, hse] at h; simp at h
    | some e =>
      rw [hs, hse] at h
      simp only [Option.some_inj] at h
      obtain ⟨h1s, h2s⟩ := maybe_truncate_some _ _ hs
      obtain ⟨h1e, h2e⟩ := maybe_truncate_some _ _ hse
      exact ⟨s, e, rfl, rfl, h.symm, h1s, h1e, h2s, h2e⟩

/-- C6 witness: short streams pass through untouched and satisfy the
bounds. -/
theorem bash_output_truncation_spec_witness :
    ∃ s e, maybe_truncate "hi".data = some s ∧ maybe_truncate "".data = some e
      ∧ ("STDOUT:\nhi\nSTDERR:\n".data : List Char)
          = "STDOUT:\n".data ++ s ++ "\nSTDERR:\n".data ++ e
      ∧ utf8Len s ≤ MAX_BASH_OUTPUT_LEN ∧ utf8Len e ≤ MAX_BASH_OUTPUT_LEN
      ∧ (MAX_BASH_OUTPUT_LEN < utf8Len "hi".data →
          ∃ pre, s = pre ++ TRUNCATED_BASH_MESSAGE.data)
      ∧ (MAX_BASH_OUTPUT_LEN < utf8Len "".data →
          ∃ pre, e = pre ++ TRUNCATED_BASH_MESSAGE.data) := by
  exact bash_output_truncation_spec "hi".data "".data "STDOUT:\nhi\nSTDERR:\n".data (by decide)

theorem utf8Len_replicate (n : Nat) (c : Char) :
    utf8Len (List.replicate n c) = n * c.utf8Size := by
  induction n with
  | zero => simp [utf8Len]
  | succ m ih => simp [List.replicate_succ, utf8Len, ih]; ring

theorem truncateBytes_replicate_one (c : Char) (hc : c.utf8Size = 1) :
    ∀ (m n : Nat) (rest : List Char), m ≤ n →
      truncateBytes (List.replicate m c ++ rest) n =
        (truncateBytes rest (n - m)).map (List.replicate m c ++ ·) := by
  intro m
  induction m with
  | zero =>
    intro n rest _
    simp
  | succ m ih =>
    intro n rest hmn
    cases n with
    | zero => omega
    | succ k =>
      have hm : m ≤ k := by omega
      simp only [List.replicate_succ, List.cons_append, truncateBytes, hc]
      rw [if_pos (by omega : (1 : Nat) ≤ k + 1)]
      have h1 : k + 1 - 1 = k := rfl
      simp only [List.append_eq]
      rw [h1, ih k rest hm, Option.map_map]
      have h2 : k + 1 - (m + 1) = k - m := by omega
      rw [h2]
      rcases truncateBytes rest (k - m) with _ | t
      · rfl
      · simp [List.replicate_succ]

/-- C9 (code bug witness): evaluating `maybe_truncate` at a stream
whose 15,820th byte (the truncation offset
`MAX_BASH_OUTPUT_LEN - TRUNCATED_BASH_MESSAGE.len()`) falls inside the
two-byte character `'α'` yields the panic outcome: `String::truncate`
panics when the cut is not a character boundary, so the function is not
total on UTF-8 strings. -/
theorem maybe_truncate_panic :
    maybe_truncate
      (List.replicate (MAX_BASH_OUTPUT_LEN - utf8Len TRUNCATED_BASH_MESSAGE.data - 1) 'a'
        ++ List.replicate 6000 'α') = none := by
  have hmsg : utf8Len TRUNCATED_BASH_MESSAGE.data = 180 := by decide
  have hk : MAX_BASH_OUTPUT_LEN - utf8Len TRUNCATED_BASH_MESSAGE.data - 1 = 15819 := by
    rw [hmsg]; decide
  have ha : ('a').utf8Size = 1 := by decide
  have halpha : ('α').utf8Size = 2 := by decide
  have hlen : utf8Len (List.replicate 15819 'a' ++ List.replicate 6000 'α') = 27819 := by
    rw [utf8Len_append, utf8Len_replicate, utf8Len_replicate, ha, halpha]
  rw [hk]
  unfold maybe_truncate
  rw [hlen, hmsg]
  have hgt : (27819 : Nat) > MAX_BASH_OUTPUT_LEN := by decide
  have hnge : ¬ (180 : Nat) ≥ MAX_BASH_OUTPUT_LEN := by decide
  rw [if_pos hgt, if_neg hnge]
  have hsub : MAX_BASH_OUTPUT_LEN - 180 = 15820 := by decide
  rw [hsub, truncateBytes_replicate_one 'a' ha 15819 15820 _ (by omega)]
  have h61 : truncateBytes (List.replicate 6000 'α') (15820 - 15819) = none := by
    have h6 : List.replicate 6000 'α' = 'α' :: List.replicate 5999 'α' := rfl
    rw [h6]
    have hsub2 : (15820 : Nat) - 15819 = 1 := by omega
    rw [hsub2]
    simp [truncateBytes, halpha]
  rw [h61]
  rfl

/-! ## Claim C5: filtering test-file chunks out of a git diff -/

/-- Models `std::path::Path::file_name` for the unix-style relative
paths appearing in diff headers: the last normal component, after
dropping empty and `.` components; `none` when the path ends in `..`
or has no normal component. -/
def rustFileName (p : String) : Option String :=
  let comps := (splitOnChar '/' p.data).filter (fun c => c ≠ [] ∧ c ≠ ['.'])
  match comps.getLast? with
  | some l => if l = ['.', '.'] then none else some ⟨l⟩
  | none => none

/-- The test-path predicate of `remove_patches_to_tests`
(`trae_agent_rs/src/utils/git_utils.rs`), in the source's disjunct
order. -/
def is_test_path (path_to_check : String) : Bool :=
  strContains path_to_check "/test/" ||
  strContains path_to_check "/tests/" ||
  strContains path_to_check "/testing/" ||
  strStartsWith path_to_check "test_" ||
  strEndsWith path_to_check "_test.py" ||
  strEndsWith path_to_check "_tests.py" ||
  strEndsWith path_to_check ".spec.js" ||
  strEndsWith path_to_check ".test.js" ||
  strEndsWith path_to_check ".spec.ts" ||
  strEndsWith path_to_check ".test.ts" ||
  strContains path_to_check "test/" ||
  strContains path_to_check "tests/" ||
  strContains path_to_check "testing/" ||
  (match rustFileName path_to_check with
   | some name => strStartsWith name "test_"
   | none => false) ||
  strEndsWith path_to_check "/tox.ini" ||
  strEndsWith path_to_check "/pytest.ini"

/-- Models `parts[3].strip_prefix("b/").unwrap_or(parts[3])`. -/
def strip_b (p : String) : String :=
  if strStartsWith p "b/" then ⟨p.data.drop 2⟩ else p

/-- A chunk-header line: `line.starts_with("diff --git a/")`. -/
def line_is_header (l : String) : Bool := strStartsWith l "diff --git a/"

/-- The header-line state update of `remove_patches_to_tests`: split
the header on whitespace; with at least 4 parts, strip a leading `b/`
from the fourth part and test it against the test-path patterns; a
malformed header marks the chunk as not-a-test. -/
def header_marks_tests (l : String) : Bool :=
  match (splitWhitespace l).get? 3 with
  | some p => is_test_path (strip_b p)
  | none => false

/-- The line loop of `remove_patches_to_tests`: the mutable
`is_tests_file_chunk` flag is threaded as a parameter; it is updated at
header lines and each line is kept iff the updated flag is false. -/
def remove_patches_go (is_tests_file_chunk : Bool) : List String → List String
  | [] => []
  | line :: rest =>
    let st := if line_is_header line then header_marks_tests line else is_tests_file_chunk
    if st then remove_patches_go st rest else line :: remove_patches_go st rest

/-- Shallow embedding of `remove_patches_to_tests`
(`trae_agent_rs/src/utils/git_utils.rs`). -/
def remove_patches_to_tests (model_patch : String) : String :=
  joinLines (remove_patches_go false (rustLines model_patch))

/-- Specification-side test-path predicate, written in the claim's
wording and order: contains `/test/`, `/tests/`, `/testing/`, `test/`,
`tests/`, `testing/`; starts with `test_`; ends with `_test.py`,
`_tests.py`, `.spec.js`, `.test.js`, `.spec.ts`, `.test.ts`; basename
begins with `test_`; ends with `/tox.ini` or `/pytest.ini`. -/
def spec_is_test_path (p : String) : Bool :=
  strContains p "/test/" ||
  strContains p "/tests/" ||
  strContains p "/testing/" ||
  strContains p "test/" ||
  strContains p "tests/" ||
  strContains p "testing/" ||
  strStartsWith p "test_" ||
  strEndsWith p "_test.py" ||
  strEndsWith p "_tests.py" ||
  strEndsWith p ".spec.js" ||
  strEndsWith p ".test.js" ||
  strEndsWith p ".spec.ts" ||
  strEndsWith p ".test.ts" ||
  (match rustFileName p with
   | some name => strStartsWith name "test_"
   | none => false) ||
  strEndsWith p "/tox.ini" ||
  strEndsWith p "/pytest.ini"

/-- Specification-side header predicate: the header's target path (the
b/ path, the fourth whitespace-separated part) matches the claim's test
patterns. -/
def spec_header_is_test (l : String) : Bool :=
  match (splitWhitespace l).get? 3 with
  | some p => spec_is_test_path (strip_b p)
  | none => false

/-- Split a line list into the prefix before the first `diff --git a/`
header and the list of chunks, each chunk beginning with its header
line. -/
def chunkSplit : List String → List String × List (List String)
  | [] => ([], [])
  | l :: ls =>
    let r := chunkSplit ls
    if line_is_header l then ([], (l :: r.1) :: r.2) else (l :: r.1, r.2)

/-- Specification-side filter, written from the claim: keep the lines
before the first header, drop every chunk whose header's target path
matches the test patterns, and keep all lines of the other chunks in
order. -/
def spec_remove_test_chunks (lines : List String) : List String :=
  (chunkSplit lines).1 ++
    ((chunkSplit lines).2.filter (fun ch => ! spec_header_is_test (ch.headD ""))).flatten

theorem is_test_path_eq_spec (p : String) : is_test_path p = spec_is_test_path p := by
  have hbool : ∀ a b : Bool, (a = true ↔ b = true) → a = b := by decide
  apply hbool
  simp only [is_test_path, spec_is_test_path, Bool.or_eq_true]
  constructor <;> intro h <;> tauto

theorem header_marks_tests_eq_spec (l : String) :
    header_marks_tests l = spec_header_is_test l := by
  unfold header_marks_tests spec_header_is_test
  cases (splitWhitespace l).get? 3 with
  | none => rfl
  | some p => exact is_test_path_eq_spec (strip_b p)

theorem remove_patches_go_eq_spec (ls : List String) :
    ∀ b : Bool, remove_patches_go b ls =
      (if b then [] else (chunkSplit ls).1) ++
        ((chunkSplit ls).2.filter (fun ch => ! header_marks_tests (ch.headD ""))).flatten := by
  induction ls with
  | nil => intro b; cases b <;> simp [remove_patches_go, chunkSplit]
  | cons l rest ih =>
    intro b
    simp only [remove_patches_go, chunkSplit]
    by_cases hh : line_is_header l
    · simp only [hh, if_true]
      by_cases hm : header_marks_tests l
      · simp [hm, ih true]
      · simp [hm, ih false]
    · simp only [hh, if_false, Bool.false_eq_true]
      cases b with
      | true => simp [ih true]
      | false => simp [ih false]

/-- C5: the test-file filter equals the claim's chunk semantics — it
splits the diff into lines (toggling only at `diff --git a/` header
lines via the chunk decomposition), drops exactly the chunks whose
header's b/ target path matches the test patterns, and preserves all
other lines in order; and the source's pattern predicate coincides with
the claim's pattern list. -/
theorem remove_patches_to_tests_spec (model_patch : String) :
    remove_patches_to_tests model_patch =
      joinLines (spec_remove_test_chunks (rustLines model_patch))
    ∧ ∀ p, is_test_path p = spec_is_test_path p := by
  constructor
  · unfold remove_patches_to_tests spec_remove_test_chunks
    rw [remove_patches_go_eq_spec]
    simp [header_marks_tests_eq_spec]
  · exact is_test_path_eq_spec

/-! ## Claim C1: the batch completion policy -/

/-- The assistant message of the LLM response's first choice
(`llm_response.choices[0].message`), with the fields `fn_should_stop`
reads: optional text content and optional tool-call list. -/
structure LLMMessage : Type where
  content : Option String
  tool_calls : Option (List ToolCall)

/-- `StopReason` from `trae_agent_rs/src/agent/base_agent.rs` as used
by `TraeAgent::fn_should_stop`. -/
inductive StopReason : Type
  | Continue : StopReason
  | TaskCompleted : StopReason
  | MaxStepsReached : StopReason
  | ValidationFailed (msg : String) : StopReason
  deriving DecidableEq, Repr

/-- The textual completion cues of `TraeAgent::fn_should_stop`. -/
def completion_indicators : List String :=
  ["task completed", "task finished", "done", "completed successfully",
   "finished successfully"]

/-- Shallow embedding of `TraeAgent::fn_should_stop`
(`trae_agent_rs/src/agent/trae_agent_rs.rs`).  `message` is
`llm_response.choices[0].message`; `git_diff_result` is the outcome of
the external call
`git_utils::get_git_diff(project_path, base_commit)` (a subprocess),
consulted only in the `must_patch` branch. -/
def fn_should_stop (message : LLMMessage) (current_step_number max_steps : Nat)
    (must_patch : Bool) (project_path : Option String)
    (git_diff_result : Except String String) : StopReason :=
  if current_step_number ≥ max_steps then
    .MaxStepsReached
  else
    let completion_signaled_by_tool :=
      match message.tool_calls with
      | some tool_calls => tool_calls.any (fun tc => tc.name == "task_done")
      | none => false
    let completion_signaled_by_text :=
      match message.content with
      | some content =>
        let content_lower := lowercase content
        completion_indicators.any (fun indicator => strContains content_lower indicator)
      | none => false
    if completion_signaled_by_tool || completion_signaled_by_text then
      if must_patch then
        match project_path with
        | some _proj_p =>
          match git_diff_result with
          | .ok model_patch =>
            let patch := remove_patches_to_tests model_patch
            if rustTrim patch = "" then
              .ValidationFailed
                "ERROR! Your Patch is empty. Please provide a patch that fixes the problem."
            else
              .TaskCompleted
          | .error e =>
            .ValidationFailed ("ERROR! Could not verify patch due to git diff error: " ++ e
              ++ ". Please try the fix again.")
        | none =>
          .ValidationFailed
            "ERROR! \x27must_patch\x27 is true, but project_path is not configured for diffing."
      else
        .TaskCompleted
    else
      .Continue

/-- Specification-side completion signal, written from the claim: some
tool call is named `task_done`, or the lowercased assistant content
contains one of the five completion substrings. -/
def completion_signaled_spec (message : LLMMessage) : Bool :=
  (message.tool_calls.getD []).any (fun tc => tc.name == "task_done") ||
    (match message.content with
     | some content =>
       completion_indicators.any (fun indicator => strContains (lowercase content) indicator)
     | none => false)

/-- C1: below `max_steps`, `fn_should_stop` signals completion (returns
something other than `Continue`) iff the claim's completion signal
holds; when signaled with `must_patch` false it returns
`TaskCompleted`; when signaled with `must_patch` true, a project path,
and a git diff whose test-filtered remainder is whitespace-only it
returns `ValidationFailed` with a message beginning
"ERROR! Your Patch is empty."; with no signal it returns `Continue`. -/
theorem fn_should_stop_spec (message : LLMMessage) (step max_steps : Nat)
    (must_patch : Bool) (project_path : Option String)
    (git_diff_result : Except String String) (h : step < max_steps) :
    ((fn_should_stop message step max_steps must_patch project_path git_diff_result
        ≠ .Continue) ↔ completion_signaled_spec message = true)
    ∧ (completion_signaled_spec message = true → must_patch = false →
      fn_should_stop message step max_steps must_patch project_path git_diff_result
        = .TaskCompleted)
    ∧ (completion_signaled_spec message = true → must_patch = true →
      ∀ p d, project_path = some p → git_diff_result = .ok d →
        rustTrim (remove_patches_to_tests d) = "" →
        ∃ msg, fn_should_stop message step max_steps must_patch project_path git_diff_result
            = .ValidationFailed msg
          ∧ strStartsWith msg "ERROR! Your Patch is empty." = true)
    ∧ (completion_signaled_spec message = false →
      fn_should_stop message step max_steps must_patch project_path git_diff_result
        = .Continue) := by
  have hstep : ¬ step ≥ max_steps := by omega
  have hcode :
      ((match message.tool_calls with
        | some tool_calls => tool_calls.any (fun tc => tc.name == "task_done")
        | none => false) ||
       (match message.content with
        | some content =>
          completion_indicators.any (fun indicator =>
            strContains (lowercase content) indicator)
        | none => false)) = completion_signaled_spec message := by
    unfold completion_signaled_spec
    cases message.tool_calls <;> rfl
  unfold fn_should_stop
  rw [if_neg hstep]
  simp only []
  rw [hcode]
  by_cases hs : completion_signaled_spec message = true
  · rw [hs]
    simp only [if_true]
    refine ⟨?_, ?_, ?_, ?_⟩
    · simp only [hs, iff_true]
      cases must_patch
      · simp
      · cases project_path with
        | none => simp
        | some p =>
          cases git_diff_result with
          | error e => simp
          | ok d =>
            by_cases ht : rustTrim (remove_patches_to_tests d) = "" <;> simp [ht]
    · intro _ hmp
      subst hmp
      simp
    · intro _ hmp p d hp hd htrim
      subst hmp
      subst hp
      subst hd
      simp only [if_true, htrim, if_pos]
      exact ⟨_, rfl, by decide⟩
    · intro hfalse
      simp [hs] at hfalse
  · have hs' : completion_signaled_spec message = false := by
      cases hx : completion_signaled_spec message
      · rfl
      · exact absurd hx hs
    rw [hs']
    simp only [Bool.false_eq_true, if_false]
    refine ⟨by simp, ?_, ?_, by intro _; trivial⟩
    · intro htrue
      exact absurd htrue (by simp)
    · intro htrue
      exact absurd htrue (by simp)

/-- C1 witness: a message whose content is "Done." (the lowercased
content contains "done"), one step below the limit, `must_patch`
false: the policy returns `TaskCompleted`. -/
theorem fn_should_stop_spec_witness :
    fn_should_stop ⟨some "Done.", none⟩ 1 5 false none (.ok "") = .TaskCompleted
    ∧ completion_signaled_spec ⟨some "Done.", none⟩ = true := by
  have h := fn_should_stop_spec ⟨some "Done.", none⟩ 1 5 false none (.ok "") (by omega)
  exact ⟨h.2.1 (by decide) rfl, by decide⟩

/-! ## Claims C7 and C10: the JSON edit tool

`JsonEditTool` (`trae_agent_rs/src/tools/json_edit_tool.rs`) delegates
JSONPath evaluation to the external `jsonpath_lib` crate.  The library
is modelled as oracle parameters: `lib` models
`SelectorMut::str_path(..).value(doc).replace_with(|_| Some(value))`
(with its two failure points), `dlib` models `jsonpath_lib::delete`.
Both `set` and `add` pass the same closure to the same library entry
point.  The filesystem is modelled by passing the file's content in and
returning the written bytes. -/

/-- The two failure points of the `jsonpath_lib` call chain used by
`set` and `add`: a JSONPath parse error from `str_path`, or an error
from `replace_with`/`take`. -/
inductive JsonPathLibError : Type
  | path (msg : String)
  | replace (msg : String)

/-- Shallow embedding of `JsonEditTool::load_json_file` after the
filesystem read: the emptiness check, then JSON parsing via the
`serde_json` oracle `parse`.  (Path absoluteness and existence checks
are filesystem-level and precede the content handling.) -/
def load_json_file (parse : String → Except String JsonV) (file_path content : String) :
    Except ToolError JsonV :=
  if rustTrim content = "" then
    .error (.FileReadError ("File is empty: " ++ file_path))
  else
    match parse content with
    | .error e => .error (.InvalidJson ("Invalid JSON in file " ++ file_path ++ ": " ++ e))
    | .ok v => .ok v

/-- Shallow embedding of `JsonEditTool::save_json_file`: serialize
according to `pretty_print` and write; the written bytes are
returned. -/
def save_json_file (pretty : Bool) (data : JsonV) : String := serializeDoc pretty data

/-- Shallow embedding of the `set` arm of `JsonEditTool::execute`:
load, apply the library replacement, save, and return the pair of the
written bytes and the success message. -/
def json_edit_set (parse : String → Except String JsonV)
    (lib : String → JsonV → JsonV → Except JsonPathLibError JsonV)
    (file_path content json_path : String) (value : JsonV) (pretty : Bool) :
    Except ToolError (String × String) :=
  match load_json_file parse file_path content with
  | .error e => .error e
  | .ok data =>
    match lib json_path data value with
    | .error (.path e) =>
      .error (.InvalidArguments "json_edit_tool"
        ("Invalid JSONPath for \x27set\x27: " ++ json_path ++ ". Error: " ++ e))
    | .error (.replace e) =>
      .error (.InternalError ("Failed to apply \x27set\x27 operation with JSONPath \x27"
        ++ json_path ++ "\x27: " ++ e))
    | .ok modified_data =>
      .ok (save_json_file pretty modified_data,
        "Successfully set value at JSONPath \x27" ++ json_path ++ "\x27 in file \x27"
          ++ file_path ++ "\x27")

/-- Shallow embedding of the `add` arm of `JsonEditTool::execute`:
identical to `set` except for the message texts. -/
def json_edit_add (parse : String → Except String JsonV)
    (lib : String → JsonV → JsonV → Except JsonPathLibError JsonV)
    (file_path content json_path : String) (value : JsonV) (pretty : Bool) :
    Except ToolError (String × String) :=
  match load_json_file parse file_path content with
  | .error e => .error e
  | .ok data =>
    match lib json_path data value with
    | .error (.path e) =>
      .error (.InvalidArguments "json_edit_tool"
        ("Invalid JSONPath for \x27add\x27: " ++ json_path ++ ". Error: " ++ e))
    | .error (.replace e) =>
      .error (.InternalError ("Failed to apply \x27add\x27 operation with JSONPath \x27"
        ++ json_path ++ "\x27: " ++ e))
    | .ok modified_data =>
      .ok (save_json_file pretty modified_data,
        "Successfully applied \x27add\x27 (as set) operation with JSONPath \x27" ++ json_path
          ++ "\x27 in file \x27" ++ file_path ++ "\x27")

/-- Shallow embedding of the `remove` arm of `JsonEditTool::execute`:
load, apply `jsonpath_lib::delete` (which replaces matches with null),
save. -/
def json_edit_remove (parse : String → Except String JsonV)
    (dlib : String → JsonV → Except String JsonV)
    (file_path content json_path : String) (pretty : Bool) :
    Except ToolError (String × String) :=
  match load_json_file parse file_path content with
  | .error e => .error e
  | .ok data =>
    match dlib json_path data with
    | .error e =>
      .error (.InternalError ("Failed to apply \x27remove\x27 operation with JSONPath \x27"
        ++ json_path ++ "\x27: " ++ e))
    | .ok modified_data =>
      .ok (save_json_file pretty modified_data,
        "Successfully applied \x27remove\x27 operation with JSONPath \x27" ++ json_path
          ++ "\x27 in file \x27" ++ file_path ++ "\x27. Matched elements are replaced with null.")

/-- C7: for every file content, JSONPath, value, pretty flag and every
behaviour of the shared `jsonpath_lib` replacement (both arms invoke it
with the same closure), the `add` operation writes exactly the same
resulting JSON document (the same file bytes) as the `set` operation —
including failing in exactly the same cases, where neither writes. -/
theorem json_add_eq_set (parse : String → Except String JsonV)
    (lib : String → JsonV → JsonV → Except JsonPathLibError JsonV)
    (file_path content json_path : String) (value : JsonV) (pretty : Bool) :
    (json_edit_add parse lib file_path content json_path value pretty).toOption.map Prod.fst
      = (json_edit_set parse lib file_path content json_path value pretty).toOption.map
          Prod.fst := by
  unfold json_edit_add json_edit_set
  cases load_json_file parse file_path content with
  | error e => rfl
  | ok data =>
    dsimp only
    cases lib json_path data value with
    | ok d => rfl
    | error le => cases le <;> rfl

/-- C10: for every successful `set`, `add` or `remove` call the file is
rewritten even when the JSONPath matches no node (modelled by the
library returning the document unchanged): the written bytes are the
re-serialization of the parsed document according to the
`pretty_print` flag, not the original file bytes, so the JSON value is
preserved but the on-disk formatting may change. -/
theorem json_edit_rewrites_file (parse : String → Except String JsonV)
    (lib : String → JsonV → JsonV → Except JsonPathLibError JsonV)
    (dlib : String → JsonV → Except String JsonV)
    (file_path content json_path : String) (value : JsonV) (pretty : Bool) (doc : JsonV)
    (hne : ¬ rustTrim content = "") (hparse : parse content = .ok doc) :
    (lib json_path doc value = .ok doc →
      (json_edit_set parse lib file_path content json_path value pretty).toOption.map Prod.fst
        = some (serializeDoc pretty doc)
      ∧ (json_edit_add parse lib file_path content json_path value pretty).toOption.map
          Prod.fst = some (serializeDoc pretty doc))
    ∧ (dlib json_path doc = .ok doc →
      (json_edit_remove parse dlib file_path content json_path pretty).toOption.map Prod.fst
        = some (serializeDoc pretty doc)) := by
  have hload : load_json_file parse file_path content = .ok doc := by
    simp [load_json_file, hne, hparse]
  constructor
  · intro hlib
    constructor <;>
      simp [json_edit_set, json_edit_add, hload, hlib, save_json_file, Except.toOption]
  · intro hdlib
    simp [json_edit_remove, hload, hdlib, save_json_file, Except.toOption]

/-- C10 witness: a file whose bytes are "\x7b \x7d" parses to the empty
object; a no-match `set` (the library returns the document unchanged)
still rewrites the file, and the written bytes "\x7b\x7d" differ from
the original bytes — the formatting changed although the document
value did not. -/
theorem json_edit_rewrites_file_witness :
    (json_edit_set (fun s => if s = "\x7b \x7d" then .ok (JsonV.obj []) else .error "bad")
        (fun _ d _ => .ok d) "/a.json" "\x7b \x7d" "$.x" JsonV.null false).toOption.map Prod.fst
      = some "\x7b\x7d"
    ∧ ("\x7b\x7d" : String) ≠ "\x7b \x7d" := by
  have h := (json_edit_rewrites_file
      (fun s => if s = "\x7b \x7d" then .ok (JsonV.obj []) else .error "bad")
      (fun _ d _ => .ok d) (fun _ d => .ok d) "/a.json" "\x7b \x7d" "$.x" JsonV.null false
      (JsonV.obj []) (by decide) rfl).1 rfl
  have hser : serializeDoc false (JsonV.obj []) = "\x7b\x7d" := by
    simp [serializeDoc, renderJson]
    rfl
  rw [hser] at h
  exact ⟨h.1, by decide⟩

end TraeAgent
